import Mathlib

/-!
# Verification of the Sensor Data Fusion Engine

A shallow embedding, in Lean 4, of the sensor-fusion core found in
`backend/utils/sensor_fusion.py`, together with theorems settling the
claims of the specification about it.

Modelling conventions:

* Python floats are modelled by `ℚ`.  Where the source compares against a
  standard deviation (`numpy.std`, a square root and hence irrational in
  general), the comparison is re-expressed by an equivalent comparison of
  squares against the (rational) variance; a justification lemma relating the
  rational test to the real-valued test with `Real.sqrt` is proved below.
* Python dicts keyed by `sensor_type` are modelled by association lists that
  preserve insertion order, exactly as CPython dicts do.
* `datetime` instants are modelled by `ℤ` (seconds); `datetime.now()` becomes
  an explicit `now` parameter.
* The scipy radial-basis-function surface fit (`Rbf`) is numeric library code
  outside the repository; it is modelled as an explicit `fit` oracle parameter
  returning `Except`, so the control flow around it (skipping small groups,
  catching fitting failures per type) is embedded faithfully.
-/

/-- Embeds the `SensorReading` dataclass of `backend/utils/sensor_fusion.py` (lines 17-31).
`metadata: Dict` is modelled as an insertion-ordered association list from
string keys to booleans (the only value the engine ever stores is `True`). -/
structure SensorReading where
  sensor_id : String
  sensor_type : String
  value : ℚ
  unit : String
  timestamp : ℤ
  location : Option (ℚ × ℚ) := none
  quality_score : ℚ := 1
  metadata : List (String × Bool) := []
deriving Repr, DecidableEq

/-- Python `{**m, k: v}`: every binding of `m` except `k` keeps its place, and
the binding for `k` is written last (CPython keeps the first position of an
existing key; the engine only ever adds the fresh key `calibrated`, for which
both conventions agree). -/
def metaInsert (m : List (String × Bool)) (k : String) (v : Bool) : List (String × Bool) :=
  (m.filter (fun p => p.1 ≠ k)) ++ [(k, v)]

/-- First value bound to key `k` in an association list, if any
(Python `d[k]` / `k in d`). -/
def alookup {α : Type} (k : String) : List (String × α) → Option α
  | [] => none
  | (k', v) :: rest => if k' = k then some v else alookup k rest

/-- A per-type calibration entry holding the `slope` and `offset` keys; either
key may be absent, in which case the source falls back to the defaults of
`factors.get` — slope 1.0, offset 0.0 (lines 152-153). -/
structure CalFactors where
  slope : Option ℚ := none
  offset : Option ℚ := none
deriving Repr, DecidableEq

/-- The mutable state of `SensorDataFusion` (lines 38-42). -/
structure SensorDataFusion where
  field_id : ℤ
  sensor_readings : List SensorReading := []
  fusion_weights : List (String × ℚ) := []
  calibration_factors : List (String × CalFactors) := []
deriving Repr, DecidableEq

/-- Embeds `SensorDataFusion.add_reading` (lines 44-46): unconditionally appends the
reading to `self.sensor_readings`. -/
def add_reading (st : SensorDataFusion) (reading : SensorReading) : SensorDataFusion :=
  { st with sensor_readings := st.sensor_readings ++ [reading] }

/-- Body of the `for` loop of `apply_calibration` (lines 145-169): one reading
in, one reading out. -/
def calibrateOne (factors : List (String × CalFactors)) (reading : SensorReading) :
    SensorReading :=
  match alookup reading.sensor_type factors with
  | none => reading
  | some f =>
      let slope := f.slope.getD 1
      let offset := f.offset.getD 0
      { sensor_id := reading.sensor_id
        sensor_type := reading.sensor_type
        value := slope * reading.value + offset
        unit := reading.unit
        timestamp := reading.timestamp
        location := reading.location
        quality_score := reading.quality_score
        metadata := metaInsert reading.metadata "calibrated" true }

/-- Embeds `SensorDataFusion.apply_calibration` (lines 139-171). -/
def apply_calibration (st : SensorDataFusion) (readings : List SensorReading) :
    List SensorReading :=
  readings.map (calibrateOne st.calibration_factors)

/-- Insertion-order list of the distinct `sensor_type`s occurring in `rs`:
the key order of the Python grouping dict built by the
`for reading in readings: sensor_groups[reading.sensor_type].append(reading)`
pattern (first occurrence wins, CPython dicts preserve insertion order). -/
def sensorTypes (rs : List SensorReading) : List String :=
  rs.foldl (fun acc r => if r.sensor_type ∈ acc then acc else acc ++ [r.sensor_type]) []

/-- The group of readings of type `t`, in insertion order: the value list of
the Python grouping dict at key `t`. -/
def groupOf (rs : List SensorReading) (t : String) : List SensorReading :=
  rs.filter (fun r => r.sensor_type = t)

/-- Embeds `numpy.mean` of a rational list (`sum / len`; the engine only applies it to
non-empty lists). -/
def listMean (l : List ℚ) : ℚ := l.sum / l.length

/-- Population variance, `numpy.var`: mean of squared deviations.
`numpy.std l = Real.sqrt (listVar l)`. -/
def listVar (l : List ℚ) : ℚ := listMean (l.map (fun v => (v - listMean l) ^ 2))

/-- Decides the real-valued test `|d| > t * Real.sqrt var` (the source test
`abs(value - mean) > threshold_factor * std`) by rational arithmetic:
for `t ≥ 0` square both sides; for `t < 0` the right side is non-positive, so
the test holds unless both sides are zero.  `absGtSqrtMul_iff` below proves the
equivalence. -/
def absGtSqrtMul (d t var : ℚ) : Bool :=
  if 0 ≤ t then decide (t ^ 2 * var < d ^ 2) else decide (var ≠ 0) || decide (d ≠ 0)

/-- Decides the real-valued test `|d| < t * Real.sqrt var` (the z-score keep
test of `clean_data`, `abs(zscore) < z_threshold`, rewritten as
`|value - mean| < z_threshold * std`); `numpy` turns a zero variance into
`nan` z-scores, and `nan < z_threshold` is false, so the test requires
`var ≠ 0`.  `absLtSqrtMul_iff` below proves the equivalence. -/
def absLtSqrtMul (d t var : ℚ) : Bool :=
  decide (var ≠ 0) && decide (0 < t) && decide (d ^ 2 < t ^ 2 * var)

/-- Body of the per-type branch of `clean_data` (lines 73-90): quality filter,
then optional z-score outlier rejection when more than 3 readings survive the
quality filter. -/
def cleanGroup (remove_outliers : Bool) (z_threshold : ℚ) (readings : List SensorReading) :
    List SensorReading :=
  let quality_filtered := readings.filter (fun r => (1 : ℚ)/2 ≤ r.quality_score)
  if remove_outliers ∧ 3 < quality_filtered.length then
    let values := quality_filtered.map (fun r => r.value)
    quality_filtered.filter (fun r =>
      absLtSqrtMul (r.value - listMean values) z_threshold (listVar values))
  else
    quality_filtered

/-- Embeds `SensorDataFusion.clean_data` (lines 60-93), with defaults
`remove_outliers = True`, `z_threshold = 3.0`. -/
def clean_data (st : SensorDataFusion) (remove_outliers : Bool := true)
    (z_threshold : ℚ := 3) : List SensorReading :=
  ((sensorTypes st.sensor_readings).map
    (fun t => cleanGroup remove_outliers z_threshold (groupOf st.sensor_readings t))).flatten

/-- Embeds `numpy.median`: middle element of the sorted values, or the average of the
two middle elements for an even count. -/
def npMedian (l : List ℚ) : ℚ :=
  let s := l.mergeSort (fun a b => a ≤ b)
  let n := s.length
  if n % 2 = 1 then s.getD (n / 2) 0
  else (s.getD (n / 2 - 1) 0 + s.getD (n / 2) 0) / 2

/-- One iteration of the update loop of `_kalman_filter_fusion`
(lines 449-459), mapping the state `(estimate, estimate_error)` through one
reading.  In the source `measurement_noise = 1.0 / reading.quality_score`;
a zero quality score would raise `ZeroDivisionError` there, so theorems about
this path assume positive quality scores. -/
def kalmanStep (s : ℚ × ℚ) (reading : SensorReading) : ℚ × ℚ :=
  let predicted_estimate := s.1
  let predicted_error := s.2 + 1/10
  let measurement_noise := 1 / reading.quality_score
  let kalman_gain := predicted_error / (predicted_error + measurement_noise)
  (predicted_estimate + kalman_gain * (reading.value - predicted_estimate),
   (1 - kalman_gain) * predicted_error)

/-- The successive `(estimate, estimate_error)` states of
`_kalman_filter_fusion` on a non-empty group: the state after initialization
(lines 446-447) followed by the state after each loop iteration. -/
def kalmanStates (first : SensorReading) (rest : List SensorReading) : List (ℚ × ℚ) :=
  rest.scanl kalmanStep (first.value, 1)

/-- Embeds `SensorDataFusion._kalman_filter_fusion` (lines 438-461): returns the final
`estimate`. -/
def kalman_filter_fusion (readings : List SensorReading) : ℚ :=
  match readings with
  | [] => 0
  | first :: rest => ((kalmanStates first rest).getLast (by cases rest <;> simp [kalmanStates])).1

/-- The per-type reduction of `multi_sensor_fusion` (lines 288-308), dispatching
on the method string with the unweighted mean as the fallback. -/
def fuseGroup (fusion_method : String) (type_readings : List SensorReading) : ℚ :=
  if fusion_method = "weighted_average" then
    let numerator := (type_readings.map (fun r => r.value * r.quality_score)).sum
    let denominator := (type_readings.map (fun r => r.quality_score)).sum
    if 0 < denominator then numerator / denominator
    else listMean (type_readings.map (fun r => r.value))
  else if fusion_method = "kalman_filter" then
    kalman_filter_fusion type_readings
  else if fusion_method = "median" then
    npMedian (type_readings.map (fun r => r.value))
  else
    listMean (type_readings.map (fun r => r.value))

/-- Embeds `SensorDataFusion.multi_sensor_fusion` (lines 270-310), default
`fusion_method` the literal string `weighted_average`.  The result dict is an association list
in the key order of the grouping dict. -/
def multi_sensor_fusion (readings : List SensorReading)
    (fusion_method : String := "weighted_average") : List (String × ℚ) :=
  if readings = [] then []
  else (sensorTypes readings).map (fun t => (t, fuseGroup fusion_method (groupOf readings t)))

/-- Embeds `SensorDataFusion.detect_sensor_anomalies` (lines 312-340), default
`threshold_factor = 2.0`: per type with at least 5 readings, flag the readings
whose deviation from the group mean exceeds `threshold_factor` standard
deviations (`numpy` population std). -/
def detect_sensor_anomalies (readings : List SensorReading)
    (threshold_factor : ℚ := 2) : List SensorReading :=
  ((sensorTypes readings).map (fun t =>
    let type_readings := groupOf readings t
    if type_readings.length < 5 then []
    else
      let values := type_readings.map (fun r => r.value)
      type_readings.filter (fun r =>
        absGtSqrtMul (r.value - listMean values) threshold_factor (listVar values)))).flatten

/-- Embeds `numpy.min` of a non-empty rational list (0 on the empty list, which the
engine never passes). -/
def listMin : List ℚ → ℚ
  | [] => 0
  | x :: xs => xs.foldl min x

/-- Embeds `numpy.max` of a non-empty rational list. -/
def listMax : List ℚ → ℚ
  | [] => 0
  | x :: xs => xs.foldl max x

/-- Minimum of a non-empty timestamp list. -/
def listMinZ : List ℤ → ℤ
  | [] => 0
  | x :: xs => xs.foldl min x

/-- Maximum of a non-empty timestamp list. -/
def listMaxZ : List ℤ → ℤ
  | [] => 0
  | x :: xs => xs.foldl max x

/-- The per-type basic statistics of the fusion report (lines 377-384).
`numpy.std` is irrational in general, so the report stores the population
variance; the reported std is `Real.sqrt variance`. -/
structure TypeStats where
  count : ℕ
  mean : ℚ
  variance : ℚ
  min : ℚ
  max : ℚ
  unit : String
deriving Repr, DecidableEq

/-- The per-type quality summary of the fusion report (lines 387-391). -/
structure QualitySummary where
  avg_quality : ℚ
  min_quality : ℚ
  high_quality_percentage : ℚ
deriving Repr, DecidableEq

/-- The per-type temporal coverage of the fusion report (lines 394-401). -/
structure TemporalCoverage where
  start_time : ℤ
  end_time : ℤ
  duration_hours : ℚ
  reading_frequency_minutes : ℚ
deriving Repr, DecidableEq

/-- One entry of the anomaly list of the report (lines 405-413). -/
structure AnomalyEntry where
  sensor_id : String
  sensor_type : String
  value : ℚ
  timestamp : ℤ
deriving Repr, DecidableEq

/-- The report dict built by `generate_fusion_report` (lines 347-357).  The
`spatial_coverage` key is initialized to an empty dict and never written, so it
is not modelled. -/
structure FusionReport where
  timestamp : ℤ
  field_id : ℤ
  total_readings : ℕ
  sensor_types : List (String × TypeStats)
  quality_summary : List (String × QualitySummary)
  temporal_coverage : List (String × TemporalCoverage)
  anomalies : List AnomalyEntry
  fusion_summary : List (String × ℚ)
deriving Repr, DecidableEq

/-- Embeds `SensorDataFusion.generate_fusion_report` (lines 342-419); `datetime.now()`
is the explicit `now` parameter. -/
def generate_fusion_report (st : SensorDataFusion) (now : ℤ)
    (readings : List SensorReading) : FusionReport :=
  let base : FusionReport :=
    { timestamp := now
      field_id := st.field_id
      total_readings := readings.length
      sensor_types := []
      quality_summary := []
      temporal_coverage := []
      anomalies := []
      fusion_summary := [] }
  if readings = [] then base
  else
    { base with
      sensor_types := (sensorTypes readings).map (fun t =>
        let type_readings := groupOf readings t
        let values := type_readings.map (fun r => r.value)
        (t, { count := type_readings.length
              mean := listMean values
              variance := listVar values
              min := listMin values
              max := listMax values
              unit := (type_readings.head?.map (fun r => r.unit)).getD "" }))
      quality_summary := (sensorTypes readings).map (fun t =>
        let type_readings := groupOf readings t
        let quality_scores := type_readings.map (fun r => r.quality_score)
        (t, { avg_quality := listMean quality_scores
              min_quality := listMin quality_scores
              high_quality_percentage :=
                ((quality_scores.filter (fun q => (4 : ℚ)/5 ≤ q)).length : ℚ) /
                  type_readings.length * 100 }))
      temporal_coverage := (sensorTypes readings).map (fun t =>
        let type_readings := groupOf readings t
        let timestamps := type_readings.map (fun r => r.timestamp)
        let time_span := listMaxZ timestamps - listMinZ timestamps
        (t, { start_time := listMinZ timestamps
              end_time := listMaxZ timestamps
              duration_hours := (time_span : ℚ) / 3600
              reading_frequency_minutes :=
                if 1 < type_readings.length then
                  (time_span : ℚ) / 60 / type_readings.length
                else 0 }))
      anomalies := (detect_sensor_anomalies readings 2).map (fun a =>
        { sensor_id := a.sensor_id
          sensor_type := a.sensor_type
          value := a.value
          timestamp := a.timestamp })
      fusion_summary := multi_sensor_fusion readings "weighted_average" }

/-- A per-type spatial fusion grid (lines 221-226): grid coordinate matrices,
interpolated value surface and count of source points. -/
structure SpatialGrid where
  grid_lat : List (List ℚ)
  grid_lon : List (List ℚ)
  values : List (List ℚ)
  original_points : ℕ
deriving Repr, DecidableEq

/-- Embeds `SensorDataFusion.fuse_spatial_data` (lines 173-232).  The numeric work of
lines 197-226 — extracting coordinates, building the `numpy.arange` /
`meshgrid` grid from the bounding box and `grid_size`, fitting the scipy
multiquadric radial-basis-function surface and evaluating it — lives in
libraries outside the repository and may raise; it is modelled by the oracle
`fit`, which receives the grid size and the located readings of one type and
either returns the grid entry or fails.  The embedding keeps the control flow
around it: unlocated readings are ignored, types with fewer than 3 located
readings are skipped, a fitting failure is caught and only that type is
omitted, and `original_points` is the size of the group of that type.
`spatialEntry` is the body of the per-type loop (lines 193-230); 
`fuse_spatial_data` is the whole method. -/
def spatialEntry (fit : ℚ → List SensorReading → Except String SpatialGrid)
    (grid_size : ℚ) (located : List SensorReading) (t : String) :
    List (String × SpatialGrid) :=
  if (groupOf located t).length < 3 then []
  else
    match fit grid_size (groupOf located t) with
    | .ok g => [(t, { g with original_points := (groupOf located t).length })]
    | .error _ => []

def fuse_spatial_data (fit : ℚ → List SensorReading → Except String SpatialGrid)
    (readings : List SensorReading) (grid_size : ℚ := 10) : List (String × SpatialGrid) :=
  if readings = [] then []
  else
    ((sensorTypes (readings.filter (fun r => r.location.isSome))).map
      (spatialEntry fit grid_size (readings.filter (fun r => r.location.isSome)))).flatten

/-- The mutable state of `RealTimeFusion` (lines 469-473).  `reading_buffer` is
an insertion-ordered association list from sensor type to the bounded
buffer of that type. -/
structure RealTimeFusion where
  field_id : ℤ
  buffer_size : ℕ
  reading_buffer : List (String × List SensorReading)
  fusion_engine : SensorDataFusion
deriving Repr, DecidableEq

/-- Embeds `RealTimeFusion.__init__` (lines 469-473), default `buffer_size = 1000`. -/
def RealTimeFusion.init (field_id : ℤ) (buffer_size : ℕ := 1000) : RealTimeFusion :=
  { field_id := field_id
    buffer_size := buffer_size
    reading_buffer := []
    fusion_engine := { field_id := field_id } }

/-- Update the entry of key `k` in an insertion-ordered association list with
`f`, creating the entry from `f []` at the end when the key is absent: the
CPython-dict semantics of
`if k not in d: d[k] = [] ... d[k].append/pop` (lines 480-487). -/
def assocUpdate (k : String) (f : List SensorReading → List SensorReading) :
    List (String × List SensorReading) → List (String × List SensorReading)
  | [] => [(k, f [])]
  | (k', v) :: rest =>
      if k' = k then (k', f v) :: rest else (k', v) :: assocUpdate k f rest

/-- Lines 483-487: append the reading, then `pop(0)` once when the buffer
exceeds `buffer_size`. -/
def bufAppendEvict (buffer_size : ℕ) (b : List SensorReading) (r : SensorReading) :
    List SensorReading :=
  if buffer_size < (b ++ [r]).length then (b ++ [r]).tail else b ++ [r]

/-- The buffer held for sensor type `t` (empty when the type has never been
seen). -/
def bufferOf (st : RealTimeFusion) (t : String) : List SensorReading :=
  (alookup t st.reading_buffer).getD []

/-- Embeds `RealTimeFusion.add_streaming_reading` (lines 475-504): insert into the
bounded per-type buffer, then fuse the buffered readings at most one hour old
(`datetime.now()` is the explicit `now` parameter, in seconds). -/
def add_streaming_reading (st : RealTimeFusion) (now : ℤ) (reading : SensorReading) :
    RealTimeFusion × List (String × ℚ) :=
  let buf := assocUpdate reading.sensor_type
    (fun b => bufAppendEvict st.buffer_size b reading) st.reading_buffer
  let recent_readings :=
    (buf.map (fun p => p.2.filter (fun r => now - r.timestamp ≤ 3600))).flatten
  let fused :=
    if recent_readings = [] then [] else multi_sensor_fusion recent_readings "weighted_average"
  ({ st with reading_buffer := buf }, fused)

/-- Run a stream of `(now, reading)` arrivals through `add_streaming_reading`,
keeping the final state. -/
def runStream (st : RealTimeFusion) (arrivals : List (ℤ × SensorReading)) : RealTimeFusion :=
  arrivals.foldl (fun s a => (add_streaming_reading s a.1 a.2).1) st

/-! Helper lemmas about association lists and grouping. -/

theorem alookup_append_of_some {α : Type} {k : String} {A : List (String × α)} {v : α}
    (B : List (String × α)) (h : alookup k A = some v) : alookup k (A ++ B) = some v := by
  induction A with
  | nil => simp [alookup] at h
  | cons p A ih =>
    obtain ⟨k1, v1⟩ := p
    by_cases hk : k1 = k
    · simp [alookup, hk] at h ⊢; exact h
    · simp [alookup, hk] at h ⊢; exact ih h

theorem alookup_append_of_none {α : Type} {k : String} {A : List (String × α)}
    (B : List (String × α)) (h : alookup k A = none) :
    alookup k (A ++ B) = alookup k B := by
  induction A with
  | nil => simp
  | cons p A ih =>
    obtain ⟨k1, v1⟩ := p
    by_cases hk : k1 = k
    · simp [alookup, hk] at h
    · simp [alookup, hk] at h ⊢; exact ih h

theorem alookup_eq_none_of_keys {α : Type} {k : String} {A : List (String × α)}
    (h : ∀ p ∈ A, p.1 ≠ k) : alookup k A = none := by
  induction A with
  | nil => rfl
  | cons p A ih =>
    obtain ⟨k1, v1⟩ := p
    have h1 : k1 ≠ k := h (k1, v1) (List.mem_cons_self _ _)
    simp [alookup, h1]
    exact ih (fun q hq => h q (List.mem_cons_of_mem _ hq))

theorem alookup_flatten_keyed {α : Type} (l : List String) (f : String → List (String × α))
    (hk : ∀ x p, p ∈ f x → p.1 = x) (t : String) :
    alookup t ((l.map f).flatten) = if t ∈ l then alookup t (f t) else none := by
  induction l with
  | nil => simp [alookup]
  | cons x l ih =>
    simp only [List.map_cons, List.flatten_cons]
    by_cases hx : x = t
    · subst hx
      cases h : alookup x (f x) with
      | none => rw [alookup_append_of_none _ h, ih]; simp [h]
      | some v => rw [alookup_append_of_some _ h]; simp [h]
    · have hnone : alookup t (f x) = none :=
        alookup_eq_none_of_keys (fun p hp => by rw [hk x p hp]; exact hx)
      rw [alookup_append_of_none _ hnone, ih]
      have hiff : (t ∈ x :: l) ↔ t ∈ l := by
        rw [List.mem_cons]
        exact ⟨fun h => h.elim (fun h1 => absurd h1.symm hx) id, Or.inr⟩
      rw [if_congr hiff rfl rfl]

theorem alookup_map_pair {α : Type} {t : String} {l : List String} (f : String → α)
    (h : t ∈ l) : alookup t (l.map (fun x => (x, f x))) = some (f t) := by
  induction l with
  | nil => simp at h
  | cons x l ih =>
    by_cases hx : x = t
    · subst hx; simp [alookup]
    · rcases List.mem_cons.mp h with h1 | h1
      · exact absurd h1.symm hx
      · simp [alookup, hx]; exact ih h1

theorem mem_foldl_types (rs : List SensorReading) (acc : List String) (t : String) :
    t ∈ rs.foldl
        (fun acc r => if r.sensor_type ∈ acc then acc else acc ++ [r.sensor_type]) acc ↔
      t ∈ acc ∨ ∃ r ∈ rs, r.sensor_type = t := by
  induction rs generalizing acc with
  | nil => simp
  | cons r rs ih =>
    simp only [List.foldl_cons, ih, List.mem_cons]
    by_cases h : r.sensor_type ∈ acc
    · have h1 : r.sensor_type = t → t ∈ acc := fun e => e ▸ h
      simp only [if_pos h]
      constructor
      · rintro (h2 | h2)
        · exact Or.inl h2
        · exact Or.inr (by simpa using Or.inr h2)
      · rintro (h2 | h2)
        · exact Or.inl h2
        · rcases (by simpa using h2 : r.sensor_type = t ∨ ∃ x ∈ rs, x.sensor_type = t) with
            h3 | h3
          · exact Or.inl (h1 h3)
          · exact Or.inr h3
    · simp only [if_neg h, List.mem_append, List.mem_singleton]
      constructor
      · rintro ((h2 | h2) | h2)
        · exact Or.inl h2
        · exact Or.inr (by simpa using Or.inl h2.symm)
        · exact Or.inr (by simpa using Or.inr h2)
      · rintro (h2 | h2)
        · exact Or.inl (Or.inl h2)
        · rcases (by simpa using h2 : r.sensor_type = t ∨ ∃ x ∈ rs, x.sensor_type = t) with
            h3 | h3
          · exact Or.inl (Or.inr h3.symm)
          · exact Or.inr h3

theorem mem_sensorTypes {rs : List SensorReading} {t : String} :
    t ∈ sensorTypes rs ↔ ∃ r ∈ rs, r.sensor_type = t := by
  unfold sensorTypes
  rw [mem_foldl_types]
  simp

theorem mem_groupOf {rs : List SensorReading} {t : String} {r : SensorReading} :
    r ∈ groupOf rs t ↔ r ∈ rs ∧ r.sensor_type = t := by
  simp [groupOf]

theorem sensorTypes_of_mem {rs : List SensorReading} {r : SensorReading} (h : r ∈ rs) :
    r.sensor_type ∈ sensorTypes rs :=
  mem_sensorTypes.mpr ⟨r, h, rfl⟩

theorem groupOf_ne_nil {rs : List SensorReading} {t : String} (h : t ∈ sensorTypes rs) :
    groupOf rs t ≠ [] := by
  obtain ⟨r, hr, ht⟩ := mem_sensorTypes.mp h
  exact List.ne_nil_of_mem (mem_groupOf.mpr ⟨hr, ht⟩)

theorem ne_nil_of_mem_sensorTypes {rs : List SensorReading} {t : String}
    (h : t ∈ sensorTypes rs) : rs ≠ [] := by
  obtain ⟨r, hr, _⟩ := mem_sensorTypes.mp h
  exact List.ne_nil_of_mem hr

/-! Justification of the rational encodings of comparisons against
`threshold * std`, where `std = Real.sqrt var`. -/

theorem listVar_nonneg (l : List ℚ) : 0 ≤ listVar l := by
  unfold listVar listMean
  apply div_nonneg
  · apply List.sum_nonneg
    intro x hx
    obtain ⟨v, _, rfl⟩ := List.mem_map.mp hx
    positivity
  · positivity

theorem absGtSqrtMul_iff (d t var : ℚ) (hvar : 0 ≤ var) :
    absGtSqrtMul d t var = true ↔
      (t : ℝ) * Real.sqrt (var : ℝ) < |(d : ℝ)| := by
  unfold absGtSqrtMul
  by_cases ht : 0 ≤ t
  · rw [if_pos ht]
    simp only [decide_eq_true_eq]
    have h1 : |(d : ℝ)| = Real.sqrt ((d : ℝ) ^ 2) := (Real.sqrt_sq_eq_abs _).symm
    have h2 : (t : ℝ) * Real.sqrt (var : ℝ) = Real.sqrt ((t : ℝ) ^ 2 * (var : ℝ)) := by
      rw [Real.sqrt_mul (by positivity), Real.sqrt_sq (by exact_mod_cast ht)]
    rw [h1, h2, Real.sqrt_lt_sqrt_iff (by positivity)]
    constructor
    · intro h; exact_mod_cast h
    · intro h; exact_mod_cast h
  · rw [if_neg ht]
    push_neg at ht
    simp only [Bool.or_eq_true, decide_eq_true_eq]
    constructor
    · rintro (hv | hd)
      · have hvp : (0 : ℝ) < (var : ℝ) := by
          exact_mod_cast lt_of_le_of_ne hvar (Ne.symm hv)
        have hs : 0 < Real.sqrt (var : ℝ) := Real.sqrt_pos.mpr hvp
        have hneg : (t : ℝ) * Real.sqrt (var : ℝ) < 0 :=
          mul_neg_of_neg_of_pos (by exact_mod_cast ht) hs
        exact lt_of_lt_of_le hneg (abs_nonneg _)
      · have hpos : (0 : ℝ) < |(d : ℝ)| := abs_pos.mpr (by exact_mod_cast hd)
        have hle : (t : ℝ) * Real.sqrt (var : ℝ) ≤ 0 :=
          mul_nonpos_of_nonpos_of_nonneg (le_of_lt (by exact_mod_cast ht))
            (Real.sqrt_nonneg _)
        exact lt_of_le_of_lt hle hpos
    · intro h
      by_contra hc
      push_neg at hc
      obtain ⟨hv, hd⟩ := hc
      rw [hv, hd] at h
      simp at h

theorem absLtSqrtMul_iff (d t var : ℚ) (hvar : 0 ≤ var) :
    absLtSqrtMul d t var = true ↔
      var ≠ 0 ∧ |(d : ℝ)| < (t : ℝ) * Real.sqrt (var : ℝ) := by
  unfold absLtSqrtMul
  simp only [Bool.and_eq_true, decide_eq_true_eq]
  constructor
  · rintro ⟨⟨hv, htpos⟩, hlt⟩
    refine ⟨hv, ?_⟩
    have h1 : |(d : ℝ)| = Real.sqrt ((d : ℝ) ^ 2) := (Real.sqrt_sq_eq_abs _).symm
    have h2 : (t : ℝ) * Real.sqrt (var : ℝ) = Real.sqrt ((t : ℝ) ^ 2 * (var : ℝ)) := by
      rw [Real.sqrt_mul (by positivity), Real.sqrt_sq (by positivity)]
    rw [h1, h2]
    apply Real.sqrt_lt_sqrt (by positivity)
    exact_mod_cast hlt
  · rintro ⟨hv, hlt⟩
    have hvp : (0 : ℝ) < (var : ℝ) := by
      exact_mod_cast lt_of_le_of_ne hvar (Ne.symm hv)
    have hs : 0 < Real.sqrt (var : ℝ) := Real.sqrt_pos.mpr hvp
    have hts : 0 < (t : ℝ) * Real.sqrt (var : ℝ) := lt_of_le_of_lt (abs_nonneg _) hlt
    have htpos : (0 : ℝ) < (t : ℝ) := by
      rcases mul_pos_iff.mp hts with ⟨h1, _⟩ | ⟨_, h2⟩
      · exact h1
      · exact absurd hs (not_lt.mpr (le_of_lt h2))
    have hsq : (d : ℝ) ^ 2 < (t : ℝ) ^ 2 * (var : ℝ) := by
      have habs : |(d : ℝ)| ^ 2 < ((t : ℝ) * Real.sqrt (var : ℝ)) ^ 2 :=
        pow_lt_pow_left₀ hlt (abs_nonneg _) (by norm_num)
      calc (d : ℝ) ^ 2 = |(d : ℝ)| ^ 2 := (sq_abs _).symm
        _ < ((t : ℝ) * Real.sqrt (var : ℝ)) ^ 2 := habs
        _ = (t : ℝ) ^ 2 * (var : ℝ) := by
            rw [mul_pow, Real.sq_sqrt (le_of_lt hvp)]
    exact ⟨⟨hv, by exact_mod_cast htpos⟩, by exact_mod_cast hsq⟩

/-! Helper lemmas about the streaming buffer. -/

theorem alookup_assocUpdate_self (k : String) (f : List SensorReading → List SensorReading)
    (l : List (String × List SensorReading)) :
    alookup k (assocUpdate k f l) = some (f ((alookup k l).getD [])) := by
  induction l with
  | nil => simp [assocUpdate, alookup]
  | cons p l ih =>
    obtain ⟨k1, v1⟩ := p
    by_cases hk : k1 = k
    · subst hk; simp [assocUpdate, alookup]
    · simp [assocUpdate, alookup, hk]; exact ih

theorem alookup_assocUpdate_ne {k t : String} (hne : t ≠ k)
    (f : List SensorReading → List SensorReading)
    (l : List (String × List SensorReading)) :
    alookup t (assocUpdate k f l) = alookup t l := by
  induction l with
  | nil =>
    have h2 : ¬ k = t := fun h => hne h.symm
    simp [assocUpdate, alookup, h2]
  | cons p l ih =>
    obtain ⟨k1, v1⟩ := p
    by_cases hk : k1 = k
    · subst hk
      have h2 : ¬ k1 = t := fun h => hne h.symm
      simp [assocUpdate, alookup, h2]
    · by_cases ht : k1 = t
      · subst ht; simp [assocUpdate, alookup, hk]
      · simp [assocUpdate, alookup, hk, ht]; exact ih

theorem bufferOf_add_streaming_self (st : RealTimeFusion) (now : ℤ) (r : SensorReading) :
    bufferOf (add_streaming_reading st now r).1 r.sensor_type
      = bufAppendEvict st.buffer_size (bufferOf st r.sensor_type) r := by
  simp [add_streaming_reading, bufferOf, alookup_assocUpdate_self]

theorem bufferOf_add_streaming_ne (st : RealTimeFusion) (now : ℤ) (r : SensorReading)
    {t : String} (hne : t ≠ r.sensor_type) :
    bufferOf (add_streaming_reading st now r).1 t = bufferOf st t := by
  simp [add_streaming_reading, bufferOf, alookup_assocUpdate_ne hne]

theorem buffer_size_add_streaming (st : RealTimeFusion) (now : ℤ) (r : SensorReading) :
    (add_streaming_reading st now r).1.buffer_size = st.buffer_size := rfl

theorem buffer_size_runStream (st : RealTimeFusion) (arrivals : List (ℤ × SensorReading)) :
    (runStream st arrivals).buffer_size = st.buffer_size := by
  induction arrivals generalizing st with
  | nil => rfl
  | cons a l ih => simpa [runStream] using ih (add_streaming_reading st a.1 a.2).1

theorem length_bufAppendEvict {bsize : ℕ} {b : List SensorReading} (r : SensorReading)
    (h : b.length ≤ bsize) : (bufAppendEvict bsize b r).length ≤ bsize := by
  unfold bufAppendEvict
  by_cases hcase : bsize < (b ++ [r]).length
  · rw [if_pos hcase]
    simpa using h
  · rw [if_neg hcase]
    simp only [List.length_append, List.length_singleton, not_lt] at hcase ⊢
    omega

theorem add_streaming_buffers_le (st : RealTimeFusion) (now : ℤ) (r : SensorReading)
    (h : ∀ t, (bufferOf st t).length ≤ st.buffer_size) :
    ∀ t, (bufferOf (add_streaming_reading st now r).1 t).length ≤ st.buffer_size := by
  intro t
  by_cases ht : t = r.sensor_type
  · subst ht
    rw [bufferOf_add_streaming_self]
    exact length_bufAppendEvict r (h _)
  · rw [bufferOf_add_streaming_ne st now r ht]
    exact h t

theorem runStream_buffers_le (arrivals : List (ℤ × SensorReading)) (st : RealTimeFusion)
    (h : ∀ t, (bufferOf st t).length ≤ st.buffer_size) :
    ∀ t, (bufferOf (runStream st arrivals) t).length ≤ st.buffer_size := by
  induction arrivals generalizing st with
  | nil => simpa [runStream] using h
  | cons a l ih =>
    intro t
    have hstep := add_streaming_buffers_le st a.1 a.2 h
    have := ih (add_streaming_reading st a.1 a.2).1 hstep t
    simpa [runStream] using this

theorem foldl_bufAppendEvict (bsize : ℕ) (L : List SensorReading) :
    ∀ b : List SensorReading, b.length ≤ bsize →
      L.foldl (bufAppendEvict bsize) b = (b ++ L).drop ((b ++ L).length - bsize) := by
  induction L with
  | nil =>
    intro b hb
    simp [Nat.sub_eq_zero_of_le hb]
  | cons r L ih =>
    intro b hb
    rw [List.foldl_cons]
    by_cases hcase : bsize < (b ++ [r]).length
    · have hlen : b.length = bsize := by
        simp only [List.length_append, List.length_singleton] at hcase
        omega
      have hstep : bufAppendEvict bsize b r = (b ++ [r]).tail := by
        unfold bufAppendEvict
        rw [if_pos hcase]
      rw [hstep]
      have htail_len : (b ++ [r]).tail.length ≤ bsize := by
        simp [hlen]
      rw [ih _ htail_len]
      have hne : b ++ [r] ≠ [] := by simp
      have htail : (b ++ [r]).tail ++ L = ((b ++ [r]) ++ L).tail :=
        (List.tail_append_of_ne_nil hne).symm
      rw [htail]
      have happ : (b ++ [r]) ++ L = b ++ r :: L := by simp
      rw [happ]
      have hX : (b ++ r :: L).length = bsize + 1 + L.length := by
        simp [hlen]
        omega
      rw [← List.drop_one, List.drop_drop]
      congr 1
      simp only [List.length_drop]
      omega
    · have hstep : bufAppendEvict bsize b r = b ++ [r] := by
        unfold bufAppendEvict
        rw [if_neg hcase]
      have hlen2 : (b ++ [r]).length ≤ bsize := le_of_not_lt hcase
      rw [hstep, ih _ hlen2]
      simp

theorem runStream_single_type (arrivals : List (ℤ × SensorReading)) (st : RealTimeFusion)
    (t : String) (h : ∀ a ∈ arrivals, a.2.sensor_type = t) :
    bufferOf (runStream st arrivals) t
      = (arrivals.map (fun a => a.2)).foldl (bufAppendEvict st.buffer_size)
          (bufferOf st t) := by
  induction arrivals generalizing st with
  | nil => simp [runStream]
  | cons a l ih =>
    have ha : a.2.sensor_type = t := h a (List.mem_cons_self _ _)
    have hrest : ∀ b ∈ l, b.2.sensor_type = t := fun b hb => h b (List.mem_cons_of_mem _ hb)
    have hr : runStream st (a :: l) = runStream (add_streaming_reading st a.1 a.2).1 l := by
      simp [runStream]
    rw [hr, ih _ hrest]
    have hbuf : bufferOf (add_streaming_reading st a.1 a.2).1 t
        = bufAppendEvict st.buffer_size (bufferOf st t) a.2 := by
      rw [← ha, bufferOf_add_streaming_self]
    rw [hbuf, buffer_size_add_streaming]
    simp

/-! Concrete data used by counterexamples and witnesses. -/

/-- A concrete reading of type `t` with value `v` and quality score `q`. -/
def sampleReading (t : String) (v q : ℚ) : SensorReading :=
  { sensor_id := "s1", sensor_type := t, value := v, unit := "u",
    timestamp := 0, location := none, quality_score := q, metadata := [] }

/-- The reading multiset `[10, 10, 10, 10, 60]` of one sensor type, from the
anomaly-detection example of the specification. -/
def anomalyExample : List SensorReading :=
  [sampleReading "temperature" 10 1, sampleReading "temperature" 10 1,
   sampleReading "temperature" 10 1, sampleReading "temperature" 10 1,
   sampleReading "temperature" 60 1]

/-- C1, counterexample: the claim says `detect_sensor_anomalies` with
`threshold_factor = 2.0` on values `[10,10,10,10,60]` returns exactly the
reading with value 60.  It does not: the mean is 20 and the population std is
20, so the deviation of the 60 reading is `40 = 2.0 * std` exactly, and the
source test `abs(value - mean) > threshold_factor * std` is strict, flagging
nothing. -/
theorem detect_anomalies_example_not_sixty :
    detect_sensor_anomalies anomalyExample 2 ≠ [sampleReading "temperature" 60 1] := by
  norm_num [detect_sensor_anomalies, anomalyExample, sampleReading, sensorTypes,
    groupOf, listMean, listVar, absGtSqrtMul, List.filter]

/-- C1, amended: on `[10,10,10,10,60]` with `threshold_factor = 2.0` the
detector flags no reading at all, because the only candidate deviation equals
the threshold exactly and the test is strict; in general a reading is flagged
iff its type has at least 5 readings and `|value - mean| > threshold_factor *
std` over the values of its type (std the population standard deviation). -/
theorem detect_anomalies_strict_threshold :
    detect_sensor_anomalies anomalyExample 2 = [] ∧
    ∀ (rs : List SensorReading) (tf : ℚ) (r : SensorReading),
      r ∈ detect_sensor_anomalies rs tf ↔
        r ∈ rs ∧ 5 ≤ (groupOf rs r.sensor_type).length ∧
          (tf : ℝ) *
              Real.sqrt ((listVar ((groupOf rs r.sensor_type).map (fun x => x.value)) : ℚ)) <
            |((r.value - listMean ((groupOf rs r.sensor_type).map (fun x => x.value)) : ℚ) : ℝ)| := by
  constructor
  · norm_num [detect_sensor_anomalies, anomalyExample, sampleReading, sensorTypes,
      groupOf, listMean, listVar, absGtSqrtMul, List.filter]
  · intro rs tf r
    simp only [detect_sensor_anomalies, List.mem_flatten, List.mem_map]
    constructor
    · rintro ⟨s, ⟨t, ht, rfl⟩, hr⟩
      by_cases hlen : (groupOf rs t).length < 5
      · rw [if_pos hlen] at hr
        simp at hr
      · rw [if_neg hlen] at hr
        rw [List.mem_filter] at hr
        obtain ⟨hmem, hcheck⟩ := hr
        obtain ⟨hrs, htype⟩ := mem_groupOf.mp hmem
        subst htype
        exact ⟨hrs, not_lt.mp hlen,
          (absGtSqrtMul_iff _ _ _ (listVar_nonneg _)).mp hcheck⟩
    · rintro ⟨hrs, hlen, hlt⟩
      refine ⟨_, ⟨r.sensor_type, sensorTypes_of_mem hrs, rfl⟩, ?_⟩
      rw [if_neg (not_lt.mpr hlen), List.mem_filter]
      exact ⟨mem_groupOf.mpr ⟨hrs, rfl⟩,
        (absGtSqrtMul_iff _ _ _ (listVar_nonneg _)).mpr hlt⟩

/-- C7: for every input state and every setting of the outlier-rejection
options, no reading with quality score below 0.5 survives `clean_data`: the
quality filter discards it and the optional z-score stage only removes
further readings. -/
theorem clean_data_quality_filter (st : SensorDataFusion) (remove_outliers : Bool)
    (z_threshold : ℚ) (r : SensorReading) (h : r.quality_score < 1/2) :
    r ∉ clean_data st remove_outliers z_threshold := by
  intro hmem
  simp only [clean_data, List.mem_flatten, List.mem_map] at hmem
  obtain ⟨s, ⟨t, ht, rfl⟩, hr⟩ := hmem
  simp only [cleanGroup] at hr
  have hq : r ∈ (groupOf st.sensor_readings t).filter
      (fun x => decide ((1 : ℚ)/2 ≤ x.quality_score)) := by
    by_cases hc : remove_outliers = true ∧
        3 < ((groupOf st.sensor_readings t).filter
          (fun x => decide ((1 : ℚ)/2 ≤ x.quality_score))).length
    · rw [if_pos hc] at hr
      exact (List.mem_filter.mp hr).1
    · rw [if_neg hc] at hr
      exact hr
  have : (1 : ℚ)/2 ≤ r.quality_score := by
    have := (List.mem_filter.mp hq).2
    simpa using this
  linarith

/-- A reading whose quality score 1/4 lies below the cleaning threshold. -/
def lowQualityReading : SensorReading := sampleReading "soil_moisture" 7 (1/4)

/-- C7, witness: the quality-1/4 reading is dropped from a concrete state. -/
theorem clean_data_quality_filter_witness :
    lowQualityReading ∉
      clean_data { field_id := 0, sensor_readings := [lowQualityReading] } true 3 :=
  clean_data_quality_filter _ true 3 lowQualityReading (by norm_num [lowQualityReading, sampleReading])

/-- A reading whose quality score 2 lies outside `[0, 1]`. -/
def outOfRangeReading : SensorReading := sampleReading "soil_moisture" 5 2

/-- C2, counterexample: the claim says ingestion fails with an `InvalidReading`
error when the quality score lies outside `[0,1]`.  Neither ingestion routine
performs any validation: `add_reading` appends the quality-2 reading to the
batch state and `add_streaming_reading` stores it in the streaming buffer, so
ingestion of an out-of-range reading succeeds instead of failing. -/
theorem ingestion_accepts_out_of_range :
    (add_reading { field_id := 1 } outOfRangeReading).sensor_readings
        = [outOfRangeReading] ∧
    bufferOf (add_streaming_reading (RealTimeFusion.init 1 1000) 0 outOfRangeReading).1
        "soil_moisture" = [outOfRangeReading] := by
  constructor
  · rfl
  · simp [add_streaming_reading, RealTimeFusion.init, bufferOf, bufAppendEvict,
      assocUpdate, alookup, outOfRangeReading, sampleReading]

/-- C2, amended: ingestion performs no validation at all.  For every reading —
whatever its quality score or value — `add_reading` appends it to
`sensor_readings` and `add_streaming_reading` pushes it into the bounded
buffer of its sensor type; no `InvalidReading` failure path exists in the
code. -/
theorem ingestion_unconditional (st : SensorDataFusion) (rt : RealTimeFusion)
    (now : ℤ) (r : SensorReading) :
    (add_reading st r).sensor_readings = st.sensor_readings ++ [r] ∧
    bufferOf (add_streaming_reading rt now r).1 r.sensor_type
      = bufAppendEvict rt.buffer_size (bufferOf rt r.sensor_type) r := by
  exact ⟨rfl, bufferOf_add_streaming_self rt now r⟩

/-- C3: starting from a fresh streaming state with capacity `bsize`, (1) after
any stream of arrivals every per-type buffer holds at most `bsize` readings,
and (2) a stream of `bsize + k` readings of a single type leaves exactly the
most recent `bsize` of them, in insertion order — the `k` oldest have been
evicted first. -/
theorem streaming_buffer_bounded_fifo (fid : ℤ) (bsize : ℕ)
    (arrivals : List (ℤ × SensorReading)) :
    (∀ t, (bufferOf (runStream (RealTimeFusion.init fid bsize) arrivals) t).length
        ≤ bsize) ∧
    (∀ (t : String) (k : ℕ), (∀ a ∈ arrivals, a.2.sensor_type = t) →
      arrivals.length = bsize + k →
      bufferOf (runStream (RealTimeFusion.init fid bsize) arrivals) t
        = (arrivals.map (fun a => a.2)).drop k) := by
  constructor
  · have h0 : ∀ t, (bufferOf (RealTimeFusion.init fid bsize) t).length
        ≤ (RealTimeFusion.init fid bsize).buffer_size := by
      intro t
      simp [RealTimeFusion.init, bufferOf, alookup]
    exact runStream_buffers_le arrivals _ h0
  · intro t k hall hlen
    rw [runStream_single_type arrivals _ t hall]
    have hinit : bufferOf (RealTimeFusion.init fid bsize) t = [] := by
      simp [RealTimeFusion.init, bufferOf, alookup]
    rw [hinit]
    have hsize : (RealTimeFusion.init fid bsize).buffer_size = bsize := rfl
    rw [hsize, foldl_bufAppendEvict bsize _ [] (by simp)]
    simp only [List.nil_append, List.length_map, hlen]
    congr 1
    omega

/-- Four single-type arrivals used to exercise the streaming FIFO with
capacity 2. -/
def streamArrivals : List (ℤ × SensorReading) :=
  [(0, sampleReading "temperature" 1 1), (0, sampleReading "temperature" 2 1),
   (0, sampleReading "temperature" 3 1), (0, sampleReading "temperature" 4 1)]

/-- C3, witness: with capacity 2 and four arrivals of one type, the buffer ends
up holding exactly the last two readings. -/
theorem streaming_buffer_bounded_fifo_witness :
    bufferOf (runStream (RealTimeFusion.init 1 2) streamArrivals) "temperature"
      = (streamArrivals.map (fun a => a.2)).drop 2 :=
  (streaming_buffer_bounded_fifo 1 2 streamArrivals).2 "temperature" 2
    (by simp [streamArrivals, sampleReading]) (by simp [streamArrivals])

/-- C4: for every sensor type present in the reading set, weighted-average
fusion returns `sum(value * quality) / sum(quality)` when the total quality is
positive and the unweighted mean of the values otherwise; when every reading
of the type has quality score 1 the fused value is exactly the arithmetic
mean of the values. -/
theorem multi_sensor_weighted_average (rs : List SensorReading) (t : String)
    (h : t ∈ sensorTypes rs) :
    alookup t (multi_sensor_fusion rs "weighted_average")
        = some (if 0 < ((groupOf rs t).map (fun r => r.quality_score)).sum then
            ((groupOf rs t).map (fun r => r.value * r.quality_score)).sum /
              ((groupOf rs t).map (fun r => r.quality_score)).sum
          else listMean ((groupOf rs t).map (fun r => r.value))) ∧
    ((∀ r ∈ groupOf rs t, r.quality_score = 1) →
      alookup t (multi_sensor_fusion rs "weighted_average")
        = some (listMean ((groupOf rs t).map (fun r => r.value)))) := by
  have hne : rs ≠ [] := ne_nil_of_mem_sensorTypes h
  have hmain : alookup t (multi_sensor_fusion rs "weighted_average")
      = some (fuseGroup "weighted_average" (groupOf rs t)) := by
    unfold multi_sensor_fusion
    rw [if_neg hne]
    exact alookup_map_pair _ h
  have hfg : fuseGroup "weighted_average" (groupOf rs t)
      = (if 0 < ((groupOf rs t).map (fun r => r.quality_score)).sum then
          ((groupOf rs t).map (fun r => r.value * r.quality_score)).sum /
            ((groupOf rs t).map (fun r => r.quality_score)).sum
        else listMean ((groupOf rs t).map (fun r => r.value))) := by
    simp [fuseGroup]
  refine ⟨by rw [hmain, hfg], ?_⟩
  intro hq
  have hg : groupOf rs t ≠ [] := groupOf_ne_nil h
  have hden : ((groupOf rs t).map (fun r => r.quality_score)).sum
      = ((groupOf rs t).length : ℚ) := by
    rw [List.map_congr_left (fun r hr => hq r hr)]
    simp [List.sum_replicate, nsmul_eq_mul]
  have hnum : ((groupOf rs t).map (fun r => r.value * r.quality_score)).sum
      = ((groupOf rs t).map (fun r => r.value)).sum := by
    rw [List.map_congr_left (g := fun r => r.value) ?_]
    intro r hr
    rw [hq r hr, mul_one]
  have hpos : 0 < ((groupOf rs t).map (fun r => r.quality_score)).sum := by
    rw [hden]
    exact_mod_cast List.length_pos.mpr hg
  rw [hmain, hfg, if_pos hpos, hnum, hden, listMean, List.length_map]

/-- Three quality-1 readings of one type with values 10, 20, 30. -/
def equalQualityReadings : List SensorReading :=
  [sampleReading "soil_moisture" 10 1, sampleReading "soil_moisture" 20 1,
   sampleReading "soil_moisture" 30 1]

/-- C4, witness: the fused value of the three quality-1 readings is their
arithmetic mean. -/
theorem multi_sensor_weighted_average_witness :
    alookup "soil_moisture" (multi_sensor_fusion equalQualityReadings "weighted_average")
      = some (listMean ((groupOf equalQualityReadings "soil_moisture").map
          (fun r => r.value))) :=
  (multi_sensor_weighted_average equalQualityReadings "soil_moisture"
      (by simp [equalQualityReadings, sampleReading, sensorTypes])).2
    (by simp [equalQualityReadings, sampleReading, groupOf, List.filter])

/-- The quality-1 reading with value 10 used by the Kalman example. -/
def kalmanExampleReading : SensorReading := sampleReading "temperature" 10 1

/-- C5: Kalman fusion of three readings with values `[10, 10, 10]` and quality
1, processed in insertion order with the estimate initialized to the first
value and the error to 1, keeps the estimate exactly at 10 at every step
(monotone convergence to 10), while the estimate error strictly decreases at
each update step (`1 > 11/21 > 131/341`), and the fused value is 10. -/
theorem kalman_constant_convergence :
    (kalmanStates kalmanExampleReading [kalmanExampleReading, kalmanExampleReading]).map
        (fun s => s.1) = [10, 10, 10] ∧
    (kalmanStates kalmanExampleReading [kalmanExampleReading, kalmanExampleReading]).map
        (fun s => s.2) = [1, 11/21, 131/341] ∧
    List.Chain' (fun a b => b < a)
      ((kalmanStates kalmanExampleReading [kalmanExampleReading, kalmanExampleReading]).map
        (fun s => s.2)) ∧
    kalman_filter_fusion
        [kalmanExampleReading, kalmanExampleReading, kalmanExampleReading] = 10 := by
  refine ⟨?_, ?_, ?_, ?_⟩
  · norm_num [kalmanStates, kalmanStep, kalmanExampleReading, sampleReading]
  · norm_num [kalmanStates, kalmanStep, kalmanExampleReading, sampleReading]
  · norm_num [kalmanStates, kalmanStep, kalmanExampleReading, sampleReading,
      List.chain'_cons]
  · norm_num [kalman_filter_fusion, kalmanStates, kalmanStep, kalmanExampleReading,
      sampleReading, List.getLast]

/-- C6: calibration is the identity on readings whose type has no registered
factor; for a registered factor it maps the value to `slope * value + offset`
(with the `factors.get` defaults slope 1, offset 0); and when the registered
factor has slope 1 and offset 0, applying calibration twice yields the same
value as applying it once. -/
theorem calibration_identity_linear :
    (∀ (st : SensorDataFusion) (rs : List SensorReading),
      (∀ r ∈ rs, alookup r.sensor_type st.calibration_factors = none) →
      apply_calibration st rs = rs) ∧
    (∀ (st : SensorDataFusion) (r : SensorReading) (f : CalFactors),
      alookup r.sensor_type st.calibration_factors = some f →
      (apply_calibration st [r]).map (fun x => x.value)
        = [f.slope.getD 1 * r.value + f.offset.getD 0]) ∧
    (∀ (st : SensorDataFusion) (r : SensorReading) (f : CalFactors),
      alookup r.sensor_type st.calibration_factors = some f →
      f.slope.getD 1 = 1 → f.offset.getD 0 = 0 →
      (calibrateOne st.calibration_factors
          (calibrateOne st.calibration_factors r)).value
        = (calibrateOne st.calibration_factors r).value) := by
  refine ⟨?_, ?_, ?_⟩
  · intro st rs h
    unfold apply_calibration
    have hid : ∀ r ∈ rs, calibrateOne st.calibration_factors r = r := by
      intro r hr
      simp [calibrateOne, h r hr]
    rw [List.map_congr_left hid]
    exact List.map_id' rs
  · intro st r f h
    simp [apply_calibration, calibrateOne, h]
  · intro st r f h hs ho
    have htype : (calibrateOne st.calibration_factors r).sensor_type = r.sensor_type := by
      simp [calibrateOne, h]
    have hval : (calibrateOne st.calibration_factors r).value = r.value := by
      simp [calibrateOne, h, hs, ho]
    have h2 : alookup (calibrateOne st.calibration_factors r).sensor_type
        st.calibration_factors = some f := by
      rw [htype]; exact h
    simp [calibrateOne, h2, h, hs, ho]

/-- A batch state with no registered calibration factor. -/
def stNoFactor : SensorDataFusion := { field_id := 0 }

/-- A batch state registering slope 2, offset 3 for `soil_moisture`. -/
def stLinearFactor : SensorDataFusion :=
  { field_id := 0,
    calibration_factors := [("soil_moisture", { slope := some 2, offset := some 3 })] }

/-- A batch state registering the identity factor slope 1, offset 0. -/
def stIdentityFactor : SensorDataFusion :=
  { field_id := 0,
    calibration_factors := [("soil_moisture", { slope := some 1, offset := some 0 })] }

/-- C6, witness: the three parts of the calibration theorem at concrete
inputs — pass-through without a factor, `2 * 5 + 3` with the linear factor,
and idempotence of the identity factor on the value. -/
theorem calibration_identity_linear_witness :
    apply_calibration stNoFactor [sampleReading "soil_moisture" 5 1]
        = [sampleReading "soil_moisture" 5 1] ∧
    (apply_calibration stLinearFactor [sampleReading "soil_moisture" 5 1]).map
        (fun x => x.value) = [13] ∧
    (calibrateOne stIdentityFactor.calibration_factors
        (calibrateOne stIdentityFactor.calibration_factors
          (sampleReading "soil_moisture" 5 1))).value
      = (calibrateOne stIdentityFactor.calibration_factors
          (sampleReading "soil_moisture" 5 1)).value := by
  refine ⟨?_, ?_, ?_⟩
  · exact calibration_identity_linear.1 stNoFactor _
      (by simp [stNoFactor, sampleReading, alookup])
  · have h := calibration_identity_linear.2.1 stLinearFactor
      (sampleReading "soil_moisture" 5 1) { slope := some 2, offset := some 3 }
      (by simp [stLinearFactor, sampleReading, alookup])
    rw [h]
    norm_num [sampleReading]
  · exact calibration_identity_linear.2.2 stIdentityFactor
      (sampleReading "soil_moisture" 5 1) { slope := some 1, offset := some 0 }
      (by simp [stIdentityFactor, sampleReading, alookup]) (by simp) (by simp)

/-- C10: when a calibration factor is registered for the type of a reading,
the transformed reading keeps `sensor_id`, `sensor_type`, `unit`, `timestamp`,
`location` and `quality_score` unchanged; only `value` (set to
`slope * value + offset`) and `metadata` (re-built with the `calibrated`
flag) differ, and the flag is set to true.  The input reading itself is a
value never mutated: the source constructs a fresh `SensorReading`, which the
pure embedding reflects. -/
theorem calibration_frame (st : SensorDataFusion) (r : SensorReading) (f : CalFactors)
    (h : alookup r.sensor_type st.calibration_factors = some f) :
    apply_calibration st [r]
      = [{ sensor_id := r.sensor_id
           sensor_type := r.sensor_type
           value := f.slope.getD 1 * r.value + f.offset.getD 0
           unit := r.unit
           timestamp := r.timestamp
           location := r.location
           quality_score := r.quality_score
           metadata := metaInsert r.metadata "calibrated" true }] ∧
    alookup "calibrated" (calibrateOne st.calibration_factors r).metadata = some true := by
  constructor
  · simp [apply_calibration, calibrateOne, h]
  · have hmeta : (calibrateOne st.calibration_factors r).metadata
        = metaInsert r.metadata "calibrated" true := by
      simp [calibrateOne, h]
    rw [hmeta, metaInsert]
    rw [alookup_append_of_none _ (alookup_eq_none_of_keys ?_)]
    · simp [alookup]
    · intro p hp
      have := (List.mem_filter.mp hp).2
      simpa using this

/-- C10, witness: the frame conditions at the concrete linear factor state. -/
theorem calibration_frame_witness :
    apply_calibration stLinearFactor [sampleReading "soil_moisture" 5 1]
        = [{ sensor_id := "s1"
             sensor_type := "soil_moisture"
             value := 13
             unit := "u"
             timestamp := 0
             location := none
             quality_score := 1
             metadata := [("calibrated", true)] }] ∧
    alookup "calibrated"
        (calibrateOne stLinearFactor.calibration_factors
          (sampleReading "soil_moisture" 5 1)).metadata = some true := by
  have h := calibration_frame stLinearFactor (sampleReading "soil_moisture" 5 1)
    { slope := some 2, offset := some 3 }
    (by simp [stLinearFactor, sampleReading, alookup])
  refine ⟨?_, h.2⟩
  rw [h.1]
  norm_num [sampleReading, metaInsert]

/-- C8: the fused-value map embedded in the fusion report equals a direct call
to multi-sensor fusion with the default weighted-average method on the same
reading set, for every state, clock value and reading set. -/
theorem report_fusion_roundtrip (st : SensorDataFusion) (now : ℤ)
    (rs : List SensorReading) :
    (generate_fusion_report st now rs).fusion_summary
      = multi_sensor_fusion rs "weighted_average" := by
  by_cases h : rs = []
  · subst h
    simp [generate_fusion_report, multi_sensor_fusion]
  · simp [generate_fusion_report, multi_sensor_fusion, h]

theorem spatialEntry_keys (fit : ℚ → List SensorReading → Except String SpatialGrid)
    (gs : ℚ) (located : List SensorReading) :
    ∀ x p, p ∈ spatialEntry fit gs located x → p.1 = x := by
  intro x p hp
  unfold spatialEntry at hp
  by_cases hlen : (groupOf located x).length < 3
  · rw [if_pos hlen] at hp
    simp at hp
  · rw [if_neg hlen] at hp
    cases hfit : fit gs (groupOf located x) with
    | ok g => rw [hfit] at hp; simp at hp; rw [hp]
    | error e => rw [hfit] at hp; simp at hp

/-- C9: spatial fusion produces no grid entry for a sensor type with fewer
than 3 located readings; a type whose surface fitting fails is omitted from
the result (the embedding is a total function — the failure is caught, not
propagated); and the entry of a type whose fitting succeeds is fully
determined by that type's own located readings — the grid with
`original_points` set to the group size — whatever the fitting does on every
other type. -/
theorem spatial_fusion_localized
    (fit : ℚ → List SensorReading → Except String SpatialGrid) (gs : ℚ)
    (rs : List SensorReading) (t : String) :
    ((groupOf (rs.filter (fun r => r.location.isSome)) t).length < 3 →
      alookup t (fuse_spatial_data fit rs gs) = none) ∧
    (∀ e, fit gs (groupOf (rs.filter (fun r => r.location.isSome)) t)
        = Except.error e →
      alookup t (fuse_spatial_data fit rs gs) = none) ∧
    (∀ g, 3 ≤ (groupOf (rs.filter (fun r => r.location.isSome)) t).length →
      fit gs (groupOf (rs.filter (fun r => r.location.isSome)) t) = Except.ok g →
      alookup t (fuse_spatial_data fit rs gs)
        = some { g with original_points :=
            (groupOf (rs.filter (fun r => r.location.isSome)) t).length }) := by
  by_cases hrs : rs = []
  · subst hrs
    refine ⟨fun _ => rfl, fun _ _ => rfl, fun g hlen hfit => ?_⟩
    simp [groupOf] at hlen
  · have hres : fuse_spatial_data fit rs gs
        = (((sensorTypes (rs.filter (fun r => r.location.isSome))).map
            (spatialEntry fit gs (rs.filter (fun r => r.location.isSome)))).flatten) := by
      unfold fuse_spatial_data
      rw [if_neg hrs]
    have hkey := spatialEntry_keys fit gs (rs.filter (fun r => r.location.isSome))
    have hlook : alookup t (fuse_spatial_data fit rs gs)
        = if t ∈ sensorTypes (rs.filter (fun r => r.location.isSome)) then
            alookup t (spatialEntry fit gs (rs.filter (fun r => r.location.isSome)) t)
          else none := by
      rw [hres, alookup_flatten_keyed _ _ hkey]
    refine ⟨?_, ?_, ?_⟩
    · intro hlen
      rw [hlook]
      by_cases hmem : t ∈ sensorTypes (rs.filter (fun r => r.location.isSome))
      · rw [if_pos hmem]
        unfold spatialEntry
        rw [if_pos hlen]
        rfl
      · rw [if_neg hmem]
    · intro e hfit
      rw [hlook]
      by_cases hmem : t ∈ sensorTypes (rs.filter (fun r => r.location.isSome))
      · rw [if_pos hmem]
        unfold spatialEntry
        by_cases hlen : (groupOf (rs.filter (fun r => r.location.isSome)) t).length < 3
        · rw [if_pos hlen]; rfl
        · rw [if_neg hlen, hfit]; rfl
      · rw [if_neg hmem]
    · intro g hlen hfit
      have hg : groupOf (rs.filter (fun r => r.location.isSome)) t ≠ [] := by
        intro hnil
        rw [hnil] at hlen
        simp at hlen
      have hmem : t ∈ sensorTypes (rs.filter (fun r => r.location.isSome)) := by
        rcases List.exists_mem_of_ne_nil _ hg with ⟨r, hr⟩
        obtain ⟨hrloc, htype⟩ := mem_groupOf.mp hr
        exact htype ▸ sensorTypes_of_mem hrloc
      rw [hlook, if_pos hmem]
      unfold spatialEntry
      rw [if_neg (not_lt.mpr hlen), hfit]
      simp [alookup]

/-- A located reading of type `t` at latitude `la`, longitude `lo`. -/
def locatedReading (t : String) (la lo v : ℚ) : SensorReading :=
  { sensor_id := "s1", sensor_type := t, value := v, unit := "u",
    timestamp := 0, location := some (la, lo), quality_score := 1, metadata := [] }

/-- Three located readings of type `a` (fitting succeeds below) followed by
four located readings of type `b` (fitting fails below). -/
def spatialExample : List SensorReading :=
  [locatedReading "a" 0 0 1, locatedReading "a" 0 1 2, locatedReading "a" 1 0 3,
   locatedReading "b" 0 0 1, locatedReading "b" 0 1 2, locatedReading "b" 1 0 3,
   locatedReading "b" 1 1 4]

/-- A fitting oracle that succeeds exactly on groups of 3 readings (so on
type `a` of `spatialExample`) and fails on all others (so on type `b`). -/
def exampleFit : ℚ → List SensorReading → Except String SpatialGrid :=
  fun _ l =>
    if l.length = 3 then Except.ok ⟨[], [], [], 0⟩
    else Except.error "singular matrix"

/-- C9, witness: with the concrete oracle, type `b` (whose fitting fails) is
omitted while type `a` still receives its grid entry, and a type `c` with no
located readings gets none. -/
theorem spatial_fusion_localized_witness :
    alookup "c" (fuse_spatial_data exampleFit spatialExample 10) = none ∧
    alookup "b" (fuse_spatial_data exampleFit spatialExample 10) = none ∧
    alookup "a" (fuse_spatial_data exampleFit spatialExample 10)
      = some { grid_lat := [], grid_lon := [], values := [], original_points := 3 } := by
  refine ⟨?_, ?_, ?_⟩
  · exact (spatial_fusion_localized exampleFit 10 spatialExample "c").1 (by decide)
  · exact (spatial_fusion_localized exampleFit 10 spatialExample "b").2.1
      "singular matrix" (by rfl)
  · have h := (spatial_fusion_localized exampleFit 10 spatialExample "a").2.2
      ⟨[], [], [], 0⟩ (by decide) (by rfl)
    rw [h]
    decide

/-- C1, witness: the amended statement evaluated on the concrete example. -/
theorem detect_anomalies_strict_threshold_witness :
    detect_sensor_anomalies anomalyExample 2 = [] :=
  detect_anomalies_strict_threshold.1
